import Mathlib

/-!
Verification of `src/cpp_samples/sample.cpp`: a two-stage lazy pipeline that
squares the fixed vector `{1, 2, 3, 4, 5}`, filters the even squares, and
prints both sequences as space-separated text on two lines.

The shallow embedding models:
* the vector `numbers` as a `List Int` (C++ `int` values here are at most 25,
  far from overflow, so `Int` is faithful);
* the lambda `square` and the filter lambda `n % 2 == 0` as Lean functions,
  with C++ truncated `%` rendered as `Int.tmod`;
* `std::views::transform` / `std::views::filter` over a finite range as the
  list functions `transform_view` / `filter_view` (named after the C++ view
  class templates);
* a range-based `for` pass over a view as an explicit iterator walk
  (`iterTransform`, `iterFilter`): the pass dereferences the underlying
  vector position by position, applies the stored callable on demand at each
  dereference, and returns both the values read and the underlying vector as
  it stands after the pass — so statements about re-iteration and about the
  source vector being unchanged are about the pass, not baked in by `rfl`
  on a pre-materialised list;
* the two output loops and labels as a rendering function producing the exact
  standard-output string.
-/

/-- The lambda `square` (sample.cpp lines 15–17): `n * n`. -/
def square (n : Int) : Int := n * n

/-- The filter lambda (sample.cpp lines 29–31): C++ `n % 2 == 0`, where C++
`%` on `int` is truncated remainder, i.e. `Int.tmod`. -/
def is_even (n : Int) : Bool := n.tmod 2 == 0

/-- The vector `numbers` (sample.cpp line 13). -/
def numbers : List Int := [1, 2, 3, 4, 5]

/-- `std::views::transform(f)` applied to a finite range, as the list of the
values the view yields in order. -/
def transform_view {α : Type} {β : Type} (f : α → β) : List α → List β
  | [] => []
  | x :: xs => f x :: transform_view f xs

/-- `std::views::filter(p)` applied to a finite range, as the list of the
values the view yields in order. -/
def filter_view {α : Type} (p : α → Bool) : List α → List α
  | [] => []
  | x :: xs => if p x then x :: filter_view p xs else filter_view p xs

/-- The view `squared_numbers` (sample.cpp lines 19–20). -/
def squared_numbers : List Int := transform_view square numbers

/-- The view `even_squared_numbers` (sample.cpp lines 28–31). -/
def even_squared_numbers : List Int := filter_view is_even squared_numbers

/-- One range-based `for` pass over `xs | transform(f)` starting at position
`i`, with explicit fuel (structural recursion so the kernel can evaluate it).
Each step dereferences the view, which applies `f` to the vector element on
demand; the pass returns the values read and the vector after the pass. -/
def iterTransformAux {α : Type} {β : Type} (f : α → β) (xs : List α) :
    Nat → Nat → List β × List α
  | 0, _ => ([], xs)
  | fuel + 1, i =>
    if h : i < xs.length then
      (f (xs.get ⟨i, h⟩) :: (iterTransformAux f xs fuel (i + 1)).1,
       (iterTransformAux f xs fuel (i + 1)).2)
    else ([], xs)

/-- A full `for` pass over `xs | transform(f)` from position `i` to the end
(sample.cpp lines 23–25). -/
def iterTransform {α : Type} {β : Type} (f : α → β) (xs : List α) (i : Nat) :
    List β × List α :=
  iterTransformAux f xs (xs.length - i) i

/-- One range-based `for` pass over `xs | transform(f) | filter(p)` starting
at position `i`, with explicit fuel. The filter iterator skips positions whose
transformed value fails `p`. -/
def iterFilterAux {α : Type} {β : Type} (p : β → Bool) (f : α → β)
    (xs : List α) : Nat → Nat → List β × List α
  | 0, _ => ([], xs)
  | fuel + 1, i =>
    if h : i < xs.length then
      (if p (f (xs.get ⟨i, h⟩)) then
         f (xs.get ⟨i, h⟩) :: (iterFilterAux p f xs fuel (i + 1)).1
       else (iterFilterAux p f xs fuel (i + 1)).1,
       (iterFilterAux p f xs fuel (i + 1)).2)
    else ([], xs)

/-- A full `for` pass over `xs | transform(f) | filter(p)` from position `i`
to the end (sample.cpp lines 34–36). -/
def iterFilter {α : Type} {β : Type} (p : β → Bool) (f : α → β) (xs : List α)
    (i : Nat) : List β × List α :=
  iterFilterAux p f xs (xs.length - i) i

/-- One output line: the label, then `std::cout << n << ' '` for each element
in iteration order, then `'\n'` (sample.cpp lines 22–26 and 33–37). -/
def renderLine (label : String) (vals : List Int) : String :=
  label ++ String.join (vals.map (fun n => toString n ++ " ")) ++ "\n"

/-- The full standard output of `main`: the first loop iterates the transform
view over `numbers`, the second loop iterates the filter view stacked on the
transform view over the vector as left by the first pass. -/
def main_output : String :=
  renderLine "Squared Numbers: " (iterTransform square numbers 0).1 ++
  renderLine "Even Squared Numbers: "
    (iterFilter is_even square (iterTransform square numbers 0).2 0).1

/- Helper lemmas relating the embedding's pieces. -/

theorem transform_view_eq_map {α β : Type} (f : α → β) (s : List α) :
    transform_view f s = s.map f := by
  induction s with
  | nil => rfl
  | cons a t ih => simp [transform_view, ih]

theorem filter_view_eq_filter {α : Type} (p : α → Bool) (s : List α) :
    filter_view p s = s.filter p := by
  induction s with
  | nil => rfl
  | cons a t ih =>
    simp only [filter_view, List.filter_cons, ih]

theorem iterTransformAux_eq {α β : Type} (f : α → β) (s : List α) :
    ∀ fuel i, s.length - i ≤ fuel →
      iterTransformAux f s fuel i = (transform_view f (s.drop i), s) := by
  intro fuel
  induction fuel with
  | zero =>
    intro i h
    have hle : s.length ≤ i := by omega
    rw [iterTransformAux, List.drop_eq_nil_of_le hle]
    rfl
  | succ n ih =>
    intro i h
    rw [iterTransformAux]
    by_cases hi : i < s.length
    · rw [dif_pos hi, ih (i + 1) (by omega)]
      have hd : s.drop i = s.get ⟨i, hi⟩ :: s.drop (i + 1) := by
        simpa using List.drop_eq_getElem_cons hi
      rw [hd]
      rfl
    · rw [dif_neg hi, List.drop_eq_nil_of_le (by omega)]
      rfl

theorem iterTransform_eq {α β : Type} (f : α → β) (s : List α) :
    iterTransform f s 0 = (transform_view f s, s) := by
  have h := iterTransformAux_eq f s (s.length - 0) 0 (Nat.le_refl _)
  simp only [List.drop_zero] at h
  exact h

theorem iterFilterAux_eq {α β : Type} (p : β → Bool) (f : α → β)
    (s : List α) :
    ∀ fuel i, s.length - i ≤ fuel →
      iterFilterAux p f s fuel i =
        (filter_view p (transform_view f (s.drop i)), s) := by
  intro fuel
  induction fuel with
  | zero =>
    intro i h
    have hle : s.length ≤ i := by omega
    rw [iterFilterAux, List.drop_eq_nil_of_le hle]
    rfl
  | succ n ih =>
    intro i h
    rw [iterFilterAux]
    by_cases hi : i < s.length
    · rw [dif_pos hi, ih (i + 1) (by omega)]
      have hd : s.drop i = s.get ⟨i, hi⟩ :: s.drop (i + 1) := by
        simpa using List.drop_eq_getElem_cons hi
      rw [hd]
      simp only [transform_view, filter_view]
    · rw [dif_neg hi, List.drop_eq_nil_of_le (by omega)]
      rfl

theorem iterFilter_eq {α β : Type} (p : β → Bool) (f : α → β) (s : List α) :
    iterFilter p f s 0 = (filter_view p (transform_view f s), s) := by
  have h := iterFilterAux_eq p f s (s.length - 0) 0 (Nat.le_refl _)
  simp only [List.drop_zero] at h
  exact h

theorem is_even_eq_decide (x : Int) : is_even x = decide ((2 : Int) ∣ x) := by
  by_cases h : (2 : Int) ∣ x
  · simp [is_even, Int.tmod_eq_zero_of_dvd h, h]
  · have ht : x.tmod 2 ≠ 0 := fun hc => h (Int.dvd_of_tmod_eq_zero hc)
    simp [is_even, ht, h]

theorem is_even_square (n : Int) : is_even (square n) = is_even n := by
  have h : (2 : Int) ∣ n * n ↔ (2 : Int) ∣ n := by
    rw [Int.prime_two.dvd_mul]
    exact or_self_iff
  simp [is_even_eq_decide, square, h]

/- Claim theorems. -/

/-- Claim C1: on the fixed literal input, standard output is exactly the two
lines, each being the label followed by every element's decimal text with a
single space after every element including the last, then a newline. -/
theorem c1_main_output :
    main_output =
      "Squared Numbers: 1 4 9 16 25 \nEven Squared Numbers: 4 16 \n" := by
  decide

/-- Claim C2: the squared sequence produced from the source sequence
`[1, 2, 3, 4, 5]` is exactly `[1, 4, 9, 16, 25]`, in order. -/
theorem c2_squared_numbers :
    numbers = [1, 2, 3, 4, 5] ∧ squared_numbers = [1, 4, 9, 16, 25] := by
  decide

/-- Claim C3: filtering the squared sequence `[1, 4, 9, 16, 25]` by evenness
yields exactly `[4, 16]`, in order; this is the program's
`even_squared_numbers`. -/
theorem c3_even_squared_numbers :
    filter_view is_even [1, 4, 9, 16, 25] = [4, 16] ∧
    even_squared_numbers = [4, 16] := by
  decide

/-- Claim C4: for every finite input sequence and every predicate, the filter
view yields exactly the input elements satisfying the predicate, in the
input's relative order (it is a sublist of the input, so never reorders), its
length is the count of satisfying elements, and the result is finite (its
length is at most the input's). -/
theorem c4_filter_view_spec {α : Type} (p : α → Bool) (s : List α) :
    List.Sublist (filter_view p s) s ∧
    (∀ x, x ∈ filter_view p s ↔ x ∈ s ∧ p x = true) ∧
    (filter_view p s).length = s.countP p ∧
    (filter_view p s).length ≤ s.length := by
  rw [filter_view_eq_filter]
  refine ⟨List.filter_sublist s, ?_, ?_, List.length_filter_le p s⟩
  · intro x
    simp [List.mem_filter]
  · exact (List.countP_eq_length_filter p s).symm

/-- Claim C5: for every finite input sequence and every function, the
transform view has the same length as the input, its i-th element is the
function applied to the input's i-th element, and a full iteration pass
recomputes the function at each position while a second pass over the
unchanged source recomputes exactly the same values (no caching of computed
elements: each pass derives every value from the source by applying `f`). -/
theorem c5_transform_view_spec {α β : Type} (f : α → β) (s : List α) :
    (transform_view f s).length = s.length ∧
    (∀ i : Nat, (transform_view f s)[i]? = Option.map f s[i]?) ∧
    iterTransform f s 0 = (transform_view f s, s) ∧
    iterTransform f (iterTransform f s 0).2 0 = (transform_view f s, s) := by
  refine ⟨?_, ?_, iterTransform_eq f s, ?_⟩
  · rw [transform_view_eq_map]
    exact List.length_map s f
  · intro i
    rw [transform_view_eq_map]
    exact List.getElem?_map f s i
  · rw [iterTransform_eq f s]
    exact iterTransform_eq f s

/-- Claim C6: the evenness predicate of the filter stage holds exactly on the
integers whose remainder modulo 2 is 0, negative integers included; in the
embedding it is a pure function, so it has no side effects. -/
theorem c6_is_even_iff (x : Int) : is_even x = true ↔ x % 2 = 0 := by
  rw [is_even_eq_decide]
  constructor
  · intro h
    have h2 : (2 : Int) ∣ x := of_decide_eq_true h
    omega
  · intro h
    exact decide_eq_true (by omega)

/-- Claim C7: a full iteration pass over the squared view and a second pass
over the source as left by the first yield identical value sequences, and
likewise for the even-squared view: iterating does not change what a
subsequent iteration produces. -/
theorem c7_reiteration_idempotent :
    (iterTransform square numbers 0).1 =
      (iterTransform square (iterTransform square numbers 0).2 0).1 ∧
    (iterFilter is_even square (iterTransform square numbers 0).2 0).1 =
      (iterFilter is_even square
        (iterFilter is_even square (iterTransform square numbers 0).2 0).2
        0).1 := by
  decide

/-- Claim C8: the even-squared sequence is at most as long as the squared
sequence, whose length equals the source sequence's length, namely 5; these
lengths are fixed for the whole run since no sequence is ever mutated. -/
theorem c8_length_invariant :
    even_squared_numbers.length ≤ squared_numbers.length ∧
    squared_numbers.length = numbers.length ∧
    numbers.length = 5 := by
  decide

/-- Claim C9: the source vector holds `[1, 2, 3, 4, 5]` and is unchanged by
both full iteration passes (squared and even-squared) and the rendering they
feed: after both passes the vector still equals `[1, 2, 3, 4, 5]`. -/
theorem c9_source_unchanged :
    numbers = [1, 2, 3, 4, 5] ∧
    (iterTransform square numbers 0).2 = [1, 2, 3, 4, 5] ∧
    (iterFilter is_even square (iterTransform square numbers 0).2 0).2 =
      [1, 2, 3, 4, 5] := by
  decide

/-- Claim C10: filtering the squares by evenness commutes with squaring the
even elements, because a square is even exactly when its root is; hence every
element of the even-squared sequence is the square of an even source
element. -/
theorem c10_filter_square_comm (s : List Int) :
    filter_view is_even (transform_view square s) =
      transform_view square (filter_view is_even s) ∧
    ∀ x, x ∈ filter_view is_even (transform_view square s) →
      ∃ y, y ∈ s ∧ is_even y = true ∧ x = square y := by
  constructor
  · induction s with
    | nil => rfl
    | cons a t ih =>
      simp only [transform_view, filter_view, is_even_square]
      cases h : is_even a <;> simp [transform_view, h, ih]
  · intro x hx
    rw [filter_view_eq_filter, transform_view_eq_map, List.mem_filter] at hx
    obtain ⟨hmem, hp⟩ := hx
    obtain ⟨y, hy, rfl⟩ := List.mem_map.mp hmem
    refine ⟨y, hy, ?_, rfl⟩
    rw [← is_even_square]
    exact hp

/-- Concrete instance of claim C10's membership clause: the element 4 of the
even-squared sequence of `[1, 2, 3]` is the square of the even source
element 2. -/
theorem c10_filter_square_comm_witness :
    4 ∈ filter_view is_even (transform_view square [1, 2, 3]) ∧
    ∃ y, y ∈ ([1, 2, 3] : List Int) ∧ is_even y = true ∧ (4 : Int) = square y :=
  ⟨by decide, (c10_filter_square_comm [1, 2, 3]).2 4 (by decide)⟩
